import Mathlib

/-!
Shallow embedding of `scripts/optimize_images.py` from the ShortcutCycle
repository.

Modelling conventions:
* Every filesystem path in the script is `os.path.join(PROJECT_ROOT, rel)`
  with the same `PROJECT_ROOT = os.getcwd()` prefix; since `os.path.join`
  with a fixed root is injective in the relative part, paths are modelled
  by their root-relative strings.
* A decoded PIL image is modelled by its dimensions plus an abstract pixel
  payload `pix`; `Image.resize` is deterministic but raises
  `ValueError: height and width must be > 0` when either requested
  dimension is zero, so it is modelled as `Option`-valued. The `try` in
  `optimize_image` wraps the whole variant loop, so such an error aborts
  the remaining variants, while files saved by earlier iterations are
  already on disk and remain. A real decoded image always has positive
  dimensions (no image format encodes a zero dimension); the `Img` type
  does not enforce this, and theorems whose conclusions depend on it carry
  explicit hypotheses instead.
* The filesystem maps a path to `none` (absent), a decodable image, an
  undecodable blob (`Image.open` raises), or a previously written WEBP file.
* Python float arithmetic in `ratio = width / img.width` followed by
  `int(img.height * ratio)` is idealised as exact rational arithmetic:
  `int` truncation of a nonnegative rational is the floor, i.e. `Nat`
  division `h * w / W`.
* Console `print` calls are modelled as an ordered log of messages.
-/

namespace OptimizeImages

/-- A decoded image: width, height, and an abstract pixel payload. -/
structure Img where
  width : Nat
  height : Nat
  pix : Nat
  deriving DecidableEq, Repr

/-- A filesystem entry: a decodable source image, a present but undecodable
file (`Image.open` raises), or a WEBP file written by `img.save`. -/
inductive Entry where
  | image (i : Img)
  | corrupt
  | webp (i : Img) (quality : Nat)
  deriving DecidableEq, Repr

/-- The filesystem, keyed by root-relative path. -/
def FS : Type := String → Option Entry

/-- Console messages emitted by the script. -/
inductive LogMsg where
  | warnMissing (path : String)
  | generated (name : String) (w h : Nat)
  | errorProcessing (path : String)
  | warnIconMissing (path : String)
  | generatedIcon (name : String)
  | errorIcon
  deriving DecidableEq, Repr

/-- `SCREENSHOTS_DIR` relative to the project root (line 11). -/
def SCREENSHOTS_DIR : String := "ShortcutCycle/App Store Connect Assets/Screenshots"

/-- `ICON_PATH` relative to the project root (line 12). -/
def ICON_PATH : String :=
  "ShortcutCycle/ShortcutCycle/Assets.xcassets/AppIcon.appiconset/1024.png"

/-- `OUTPUT_DIR` relative to the project root (line 15). -/
def OUTPUT_DIR : String := "docs/assets/images"

/-- `FILES_TO_PROCESS` (lines 18-30), as an insertion-ordered association list. -/
def FILES_TO_PROCESS : List (String × String) :=
  [("HUD Light.png", "hud-light"),
   ("HUD-Grid Light.png", "hud-grid-light"),
   ("HUD Dark.png", "hud-dark"),
   ("HUD-Grid Dark.png", "hud-grid-dark"),
   ("General Light.png", "general-light"),
   ("General Dark.png", "general-dark"),
   ("Group Light.png", "group-light"),
   ("Group Dark.png", "group-dark"),
   ("Menubar and languages.png", "menubar-languages"),
   ("Automatic Backups.png", "automatic-backups"),
   ("Automatic Backups Dark.png", "automatic-backups-dark")]

/-- `TARGET_WIDTHS` (lines 33-36), insertion-ordered. -/
def TARGET_WIDTHS : List (String × Nat) := [("large", 1800), ("small", 900)]

/-- `MAX_WIDTH_ICON` (line 37). -/
def MAX_WIDTH_ICON : Nat := 160

/-- `os.path.join` for a directory and a file name. -/
def pathJoin (d f : String) : String := d ++ "/" ++ f

/-- `img.resize((w, h), Image.Resampling.LANCZOS)`: deterministic, but PIL
raises `ValueError: height and width must be > 0` when either requested
dimension is zero, modelled as `none`. -/
def resize (i : Img) (w h : Nat) : Option Img :=
  if 0 < w ∧ 0 < h then some ⟨w, h, i.pix⟩ else none

/-- `new_height = int(img.height * (width / img.width))` (lines 51-52),
idealised over exact rationals: truncation of a nonnegative value is the
floor, i.e. `Nat` division. -/
def newHeight (h W w : Nat) : Nat := h * w / W

/-- `Image.open` semantics on a filesystem entry: images and previously
written WEBP files decode; a corrupt blob raises. -/
def decodeEntry : Entry → Option Img
  | Entry.image i => some i
  | Entry.webp i _ => some i
  | Entry.corrupt => none

/-- Output filename construction (lines 58-61): the `large` suffix maps to
the bare base name, any other suffix is appended with a dash. -/
def final_name (output_name_base suffix : String) : String :=
  if suffix = "large" then output_name_base ++ ".webp"
  else output_name_base ++ "-" ++ suffix ++ ".webp"

/-- One iteration of the loop in `optimize_image` (lines 46-65): copy the
original, resize if wider than the target (which raises, giving `none`, when
the truncated height is zero), and save as WEBP quality 80. On success,
returns the written (path, file) pair and the success message. -/
def processVariant (original : Img) (output_name_base : String)
    (q : String × Nat) : Option ((String × Entry) × LogMsg) :=
  match (if original.width > q.2 then
      resize original q.2 (newHeight original.height original.width q.2)
    else some original) with
  | none => none
  | some img =>
    let fname := final_name output_name_base q.1
    some ((pathJoin OUTPUT_DIR fname, Entry.webp img 80),
      LogMsg.generated fname img.width img.height)

/-- The variant loop of `optimize_image` (lines 46-65) under the `try` of
line 44: variants are processed in order; the first raising variant aborts
the rest, the exception is caught once at line 67 and logged, and the files
already saved by earlier iterations remain on disk. -/
def runVariants (original : Img) (output_name_base source_path : String) :
    List (String × Nat) → List LogMsg × List (String × Entry)
  | [] => ([], [])
  | q :: qs =>
    match processVariant original output_name_base q with
    | none => ([LogMsg.errorProcessing source_path], [])
    | some (wr, msg) =>
      let rest := runVariants original output_name_base source_path qs
      (msg :: rest.1, wr :: rest.2)

/-- `optimize_image(source_path, output_name_base, widths)` (lines 39-68):
returns the emitted log messages and the list of writes, in order. A missing
source warns and returns; the `try` wraps both the decode and the whole
variant loop, so a decode failure — or a raising variant mid-loop — is
caught and logged once, keeping any variants already written. -/
def optimize_image (fs : FS) (source_path output_name_base : String)
    (widths : List (String × Nat)) : List LogMsg × List (String × Entry) :=
  match fs source_path with
  | none => ([LogMsg.warnMissing source_path], [])
  | some e =>
    match decodeEntry e with
    | none => ([LogMsg.errorProcessing source_path], [])
    | some original => runVariants original output_name_base source_path widths

/-- `optimize_icon(source_path, output_name, max_width)` (lines 70-84):
resizes to an exact `max_width × max_width` square when the source is wider
(raising, caught at line 83, when `max_width` is zero), else passes through;
writes `{output_name}.webp` at quality 80. -/
def optimize_icon (fs : FS) (source_path output_name : String)
    (max_width : Nat) : List LogMsg × List (String × Entry) :=
  match fs source_path with
  | none => ([LogMsg.warnIconMissing source_path], [])
  | some e =>
    match decodeEntry e with
    | none => ([LogMsg.errorIcon], [])
    | some img0 =>
      match (if img0.width > max_width then resize img0 max_width max_width
        else some img0) with
      | none => ([LogMsg.errorIcon], [])
      | some img =>
        ([LogMsg.generatedIcon (output_name ++ ".webp")],
         [(pathJoin OUTPUT_DIR (output_name ++ ".webp"), Entry.webp img 80)])

/-- The outcome of one run of `main` (lines 86-113). -/
@[ext] structure MainResult where
  dirCreated : Bool
  count : Nat
  logs : List LogMsg
  writes : List (String × Entry)
  deriving DecidableEq, Repr

/-- One step of the screenshot loop in `main` (lines 104-107): the
accumulator carries `count`, the log so far, and the writes so far. -/
def screenshotStep (fs : FS)
    (acc : Nat × List LogMsg × List (String × Entry)) (pr : String × String) :
    Nat × List LogMsg × List (String × Entry) :=
  let r := optimize_image fs (pathJoin SCREENSHOTS_DIR pr.1) pr.2 TARGET_WIDTHS
  (acc.1 + 1, acc.2.1 ++ r.1, acc.2.2 ++ r.2)

/-- `main()` (lines 86-113), given whether the output directory already
exists and the filesystem. The in-body `import PIL` check (lines 95-100)
cannot fail here: whenever `main` runs, the module-level
`from PIL import Image` (line 4) has already succeeded. -/
def main (outputDirExists : Bool) (fs : FS) : MainResult :=
  let s := FILES_TO_PROCESS.foldl (screenshotStep fs) (0, [], [])
  let icon := optimize_icon fs ICON_PATH "app-icon" MAX_WIDTH_ICON
  { dirCreated := !outputDirExists
    count := s.1 + 1
    logs := s.2.1 ++ icon.1
    writes := s.2.2 ++ icon.2 }

/-- The outcome of running the whole script as a process. -/
structure ProcResult where
  exitCode : Nat
  ran : Option MainResult
  deriving DecidableEq, Repr

/-- Running the script as a process: when Pillow is absent, the module-level
`from PIL import Image` (line 4) raises ImportError, so the interpreter
reports it and exits non-zero before `main` runs (in particular before the
output directory is created); otherwise `main` runs and nothing in it can
set a non-zero exit status. -/
def runProcess (pillowAvailable outputDirExists : Bool) (fs : FS) : ProcResult :=
  if pillowAvailable then
    { exitCode := 0, ran := some (main outputDirExists fs) }
  else
    { exitCode := 1, ran := none }

/-- Applying a sequence of writes to the filesystem, in order
(later writes to the same path win, as on a real filesystem). -/
def applyWrites (fs : FS) : List (String × Entry) → FS
  | [] => fs
  | w :: ws => applyWrites (fun p => if p = w.1 then some w.2 else fs p) ws

/-- Rounding to the nearest integer, halves up. Modelled from the spec:
"height equals `round(original_height × target_width / original_width)`".
(`(2hw + W) / (2W)` is `⌊hw/W + 1/2⌋`; off ties every rounding convention
agrees with it.) -/
def specRound (h W w : Nat) : Nat := (2 * (h * w) + W) / (2 * W)

/-- The source paths the batch reads: the eleven screenshots plus the icon. -/
def sourcePaths : List String :=
  FILES_TO_PROCESS.map (fun pr => pathJoin SCREENSHOTS_DIR pr.1) ++ [ICON_PATH]

/-- Every path the batch can ever write: the two variants of each screenshot
plus the icon output. -/
def allOutPaths : List String :=
  (FILES_TO_PROCESS.map (fun pr =>
    TARGET_WIDTHS.map (fun q => pathJoin OUTPUT_DIR (final_name pr.2 q.1)))).flatten ++
  [pathJoin OUTPUT_DIR "app-icon.webp"]

/-- A filesystem where every path holds the same 3600×2000 image. -/
def fsAll : FS := fun _ => some (Entry.image ⟨3600, 2000, 0⟩)

/-- The empty filesystem. -/
def fsEmpty : FS := fun _ => none

/-- A filesystem holding a single corrupt file at "shot.png". -/
def fsCorruptOne : FS := fun p => if p = "shot.png" then some Entry.corrupt else none

/-- A filesystem holding one image at "shot.png". -/
def fsShot (i : Img) : FS := fun p => if p = "shot.png" then some (Entry.image i) else none

/-- A filesystem holding only the icon source. -/
def fsIconOnly : FS := fun p => if p = ICON_PATH then some (Entry.image ⟨1024, 1024, 5⟩) else none

/-! Helper lemmas about the embedding. -/

lemma optimize_image_of_missing (fs : FS) (p b : String) (widths : List (String × Nat))
    (hfs : fs p = none) :
    optimize_image fs p b widths = ([LogMsg.warnMissing p], []) := by
  simp [optimize_image, hfs]

lemma optimize_image_of_image (fs : FS) (p b : String) (widths : List (String × Nat))
    (i : Img) (hfs : fs p = some (Entry.image i)) :
    optimize_image fs p b widths = runVariants i b p widths := by
  simp [optimize_image, hfs, decodeEntry]

lemma optimize_icon_of_missing (fs : FS) (p n : String) (m : Nat) (hfs : fs p = none) :
    optimize_icon fs p n m = ([LogMsg.warnIconMissing p], []) := by
  simp [optimize_icon, hfs]

lemma optimize_icon_of_image (fs : FS) (p n : String) (m : Nat) (i : Img)
    (hfs : fs p = some (Entry.image i)) (hm : 0 < m) :
    optimize_icon fs p n m =
      ([LogMsg.generatedIcon (n ++ ".webp")],
       [(pathJoin OUTPUT_DIR (n ++ ".webp"),
         Entry.webp (if i.width > m then Img.mk m m i.pix else i) 80)]) := by
  by_cases h : i.width > m
  · simp [optimize_icon, hfs, decodeEntry, resize, h, hm]
  · simp [optimize_icon, hfs, decodeEntry, resize, h]

lemma processVariant_pass (i : Img) (b : String) (q : String × Nat)
    (h : i.width ≤ q.2) :
    processVariant i b q =
      some ((pathJoin OUTPUT_DIR (final_name b q.1), Entry.webp i 80),
        LogMsg.generated (final_name b q.1) i.width i.height) := by
  have hng : ¬ (i.width > q.2) := not_lt.mpr h
  simp [processVariant, hng]

lemma processVariant_resize_success (i : Img) (b : String) (q : String × Nat)
    (h : q.2 < i.width) (hq : 0 < q.2) (hh : 0 < newHeight i.height i.width q.2) :
    processVariant i b q =
      some ((pathJoin OUTPUT_DIR (final_name b q.1),
          Entry.webp ⟨q.2, newHeight i.height i.width q.2, i.pix⟩ 80),
        LogMsg.generated (final_name b q.1) q.2 (newHeight i.height i.width q.2)) := by
  simp [processVariant, h, resize, hq, hh]

lemma processVariant_resize_fail (i : Img) (b : String) (q : String × Nat)
    (h : q.2 < i.width) (hh : newHeight i.height i.width q.2 = 0) :
    processVariant i b q = none := by
  simp [processVariant, h, resize, hh]

lemma runVariants_nil (i : Img) (b p : String) : runVariants i b p [] = ([], []) := rfl

lemma runVariants_cons_some (i : Img) (b p : String) (q : String × Nat)
    (qs : List (String × Nat)) (r : (String × Entry) × LogMsg)
    (h : processVariant i b q = some r) :
    runVariants i b p (q :: qs) =
      (r.2 :: (runVariants i b p qs).1, r.1 :: (runVariants i b p qs).2) := by
  obtain ⟨wr, msg⟩ := r
  simp [runVariants, h]

lemma runVariants_cons_none (i : Img) (b p : String) (q : String × Nat)
    (qs : List (String × Nat)) (h : processVariant i b q = none) :
    runVariants i b p (q :: qs) = ([LogMsg.errorProcessing p], []) := by
  simp [runVariants, h]

lemma processVariant_some_path (i : Img) (b : String) (q : String × Nat)
    (r : (String × Entry) × LogMsg) (h : processVariant i b q = some r) :
    r.1.1 = pathJoin OUTPUT_DIR (final_name b q.1) := by
  unfold processVariant at h
  cases hstep : (if i.width > q.2 then
      resize i q.2 (newHeight i.height i.width q.2) else some i) with
  | none => rw [hstep] at h; simp at h
  | some img =>
    rw [hstep] at h
    simp at h
    rw [← h]

lemma runVariants_write_path_mem (i : Img) (b p : String) :
    ∀ (widths : List (String × Nat)), ∀ pr ∈ (runVariants i b p widths).2,
      pr.1 ∈ widths.map (fun q => pathJoin OUTPUT_DIR (final_name b q.1)) := by
  intro widths
  induction widths with
  | nil => intro pr hpr; simp [runVariants_nil] at hpr
  | cons q qs ih =>
    intro pr hpr
    cases hq : processVariant i b q with
    | none => rw [runVariants_cons_none i b p q qs hq] at hpr; simp at hpr
    | some r =>
      rw [runVariants_cons_some i b p q qs r hq] at hpr
      rcases List.mem_cons.mp hpr with hpr | hpr
      · subst hpr
        exact List.mem_cons.mpr (Or.inl (processVariant_some_path i b q r hq))
      · exact List.mem_cons.mpr (Or.inr (ih pr hpr))

lemma runVariants_length_le (i : Img) (b p : String) :
    ∀ (widths : List (String × Nat)),
      (runVariants i b p widths).2.length ≤ widths.length := by
  intro widths
  induction widths with
  | nil => simp [runVariants_nil]
  | cons q qs ih =>
    cases hq : processVariant i b q with
    | none => rw [runVariants_cons_none i b p q qs hq]; simp
    | some r =>
      rw [runVariants_cons_some i b p q qs r hq]
      simpa using ih

lemma foldl_screenshotStep (fs : FS) :
    ∀ (l : List (String × String)) (acc : Nat × List LogMsg × List (String × Entry)),
      l.foldl (screenshotStep fs) acc =
        (acc.1 + l.length,
         acc.2.1 ++ (l.map (fun pr =>
           (optimize_image fs (pathJoin SCREENSHOTS_DIR pr.1) pr.2 TARGET_WIDTHS).1)).flatten,
         acc.2.2 ++ (l.map (fun pr =>
           (optimize_image fs (pathJoin SCREENSHOTS_DIR pr.1) pr.2 TARGET_WIDTHS).2)).flatten) := by
  intro l
  induction l with
  | nil => intro acc; simp
  | cons hd tl ih =>
    intro acc
    rw [List.foldl_cons, ih]
    simp [screenshotStep, List.append_assoc]
    omega

lemma main_count (d : Bool) (fs : FS) : (main d fs).count = FILES_TO_PROCESS.length + 1 := by
  simp [main, foldl_screenshotStep]

lemma main_dirCreated (d : Bool) (fs : FS) : (main d fs).dirCreated = !d := rfl

lemma main_logs (d : Bool) (fs : FS) :
    (main d fs).logs = (FILES_TO_PROCESS.map (fun pr =>
        (optimize_image fs (pathJoin SCREENSHOTS_DIR pr.1) pr.2 TARGET_WIDTHS).1)).flatten ++
      (optimize_icon fs ICON_PATH "app-icon" MAX_WIDTH_ICON).1 := by
  simp [main, foldl_screenshotStep]

lemma main_writes (d : Bool) (fs : FS) :
    (main d fs).writes = (FILES_TO_PROCESS.map (fun pr =>
        (optimize_image fs (pathJoin SCREENSHOTS_DIR pr.1) pr.2 TARGET_WIDTHS).2)).flatten ++
      (optimize_icon fs ICON_PATH "app-icon" MAX_WIDTH_ICON).2 := by
  simp [main, foldl_screenshotStep]

lemma optimize_image_of_undecodable (fs : FS) (p b : String)
    (widths : List (String × Nat)) (e : Entry) (hfs : fs p = some e)
    (hd : decodeEntry e = none) :
    optimize_image fs p b widths = ([LogMsg.errorProcessing p], []) := by
  simp [optimize_image, hfs, hd]

lemma optimize_image_of_decodable (fs : FS) (p b : String)
    (widths : List (String × Nat)) (e : Entry) (i : Img) (hfs : fs p = some e)
    (hd : decodeEntry e = some i) :
    optimize_image fs p b widths = runVariants i b p widths := by
  simp [optimize_image, hfs, hd]

lemma optimize_icon_of_undecodable (fs : FS) (p n : String) (m : Nat)
    (e : Entry) (hfs : fs p = some e) (hd : decodeEntry e = none) :
    optimize_icon fs p n m = ([LogMsg.errorIcon], []) := by
  simp [optimize_icon, hfs, hd]

lemma optimize_icon_of_decodable (fs : FS) (p n : String) (m : Nat)
    (e : Entry) (i : Img) (hfs : fs p = some e) (hd : decodeEntry e = some i) :
    optimize_icon fs p n m =
      match (if i.width > m then resize i m m else some i) with
      | none => ([LogMsg.errorIcon], [])
      | some img =>
        ([LogMsg.generatedIcon (n ++ ".webp")],
         [(pathJoin OUTPUT_DIR (n ++ ".webp"), Entry.webp img 80)]) := by
  simp [optimize_icon, hfs, hd]

lemma optimize_image_write_path_mem (fs : FS) (p b : String)
    (widths : List (String × Nat)) :
    ∀ pr ∈ (optimize_image fs p b widths).2,
      pr.1 ∈ widths.map (fun q => pathJoin OUTPUT_DIR (final_name b q.1)) := by
  intro pr hpr
  cases hfs : fs p with
  | none => rw [optimize_image_of_missing fs p b widths hfs] at hpr; simp at hpr
  | some e =>
    cases hd : decodeEntry e with
    | none =>
      rw [optimize_image_of_undecodable fs p b widths e hfs hd] at hpr
      simp at hpr
    | some i =>
      rw [optimize_image_of_decodable fs p b widths e i hfs hd] at hpr
      exact runVariants_write_path_mem i b p widths pr hpr

lemma optimize_icon_write_path_mem (fs : FS) (p n : String) (m : Nat) :
    ∀ pr ∈ (optimize_icon fs p n m).2, pr.1 = pathJoin OUTPUT_DIR (n ++ ".webp") := by
  intro pr hpr
  cases hfs : fs p with
  | none => rw [optimize_icon_of_missing fs p n m hfs] at hpr; simp at hpr
  | some e =>
    cases hd : decodeEntry e with
    | none =>
      rw [optimize_icon_of_undecodable fs p n m e hfs hd] at hpr
      simp at hpr
    | some i =>
      rw [optimize_icon_of_decodable fs p n m e i hfs hd] at hpr
      cases hstep : (if i.width > m then resize i m m else some i) with
      | none => rw [hstep] at hpr; simp at hpr
      | some img =>
        rw [hstep] at hpr
        simp at hpr
        rw [hpr]

lemma main_write_path_mem (d : Bool) (fs : FS) :
    ∀ pr ∈ (main d fs).writes, pr.1 ∈ allOutPaths := by
  intro pr hpr
  rw [main_writes] at hpr
  rcases List.mem_append.mp hpr with h | h
  · obtain ⟨l, hl, hprl⟩ := List.mem_flatten.mp h
    obtain ⟨f, hf, rfl⟩ := List.mem_map.mp hl
    have hmem := optimize_image_write_path_mem fs _ f.2 TARGET_WIDTHS pr hprl
    obtain ⟨q, hq, hpath⟩ := List.mem_map.mp hmem
    refine List.mem_append_left _ (List.mem_flatten.mpr ?_)
    refine ⟨TARGET_WIDTHS.map (fun q => pathJoin OUTPUT_DIR (final_name f.2 q.1)), ?_, ?_⟩
    · exact List.mem_map_of_mem _ hf
    · rw [← hpath]; exact List.mem_map_of_mem _ hq
  · have := optimize_icon_write_path_mem fs ICON_PATH "app-icon" MAX_WIDTH_ICON pr h
    rw [this]
    exact List.mem_append_right _ (List.mem_singleton.mpr rfl)

lemma sourcePaths_not_out : ∀ p ∈ sourcePaths, p ∉ allOutPaths := by decide

lemma applyWrites_eq_of_not_written (ws : List (String × Entry)) :
    ∀ (fs : FS) (p : String), (∀ w ∈ ws, w.1 ≠ p) → applyWrites fs ws p = fs p := by
  induction ws with
  | nil => intro fs p _; rfl
  | cons w ws ih =>
    intro fs p h
    have hw : w.1 ≠ p := h w (List.mem_cons_self w ws)
    have hrest : ∀ v ∈ ws, v.1 ≠ p := fun v hv => h v (List.mem_cons_of_mem w hv)
    have hne : ¬ (p = w.1) := fun hc => hw hc.symm
    rw [applyWrites, ih _ p hrest, if_neg hne]

lemma optimize_image_congr (fs fs2 : FS) (p b : String) (widths : List (String × Nat))
    (h : fs2 p = fs p) : optimize_image fs2 p b widths = optimize_image fs p b widths := by
  unfold optimize_image
  rw [h]

lemma optimize_icon_congr (fs fs2 : FS) (p n : String) (m : Nat)
    (h : fs2 p = fs p) : optimize_icon fs2 p n m = optimize_icon fs p n m := by
  unfold optimize_icon
  rw [h]

lemma main_congr (d : Bool) (fs fs2 : FS)
    (h : ∀ p ∈ sourcePaths, fs2 p = fs p) : main d fs2 = main d fs := by
  have hshots : ∀ pr ∈ FILES_TO_PROCESS,
      optimize_image fs2 (pathJoin SCREENSHOTS_DIR pr.1) pr.2 TARGET_WIDTHS =
        optimize_image fs (pathJoin SCREENSHOTS_DIR pr.1) pr.2 TARGET_WIDTHS := by
    intro pr hpr
    refine optimize_image_congr fs fs2 _ pr.2 TARGET_WIDTHS (h _ ?_)
    exact List.mem_append_left _ (List.mem_map_of_mem _ hpr)
  have hicon : optimize_icon fs2 ICON_PATH "app-icon" MAX_WIDTH_ICON =
      optimize_icon fs ICON_PATH "app-icon" MAX_WIDTH_ICON := by
    refine optimize_icon_congr fs fs2 ICON_PATH "app-icon" MAX_WIDTH_ICON (h _ ?_)
    exact List.mem_append_right _ (List.mem_singleton.mpr rfl)
  ext1
  · rw [main_dirCreated, main_dirCreated]
  · rw [main_count, main_count]
  · rw [main_logs, main_logs, hicon]
    congr 2
    exact List.map_congr_left (fun pr hpr => by rw [hshots pr hpr])
  · rw [main_writes, main_writes, hicon]
    congr 2
    exact List.map_congr_left (fun pr hpr => by rw [hshots pr hpr])

lemma floor_div_bounds (h W w : Nat) (hW : 0 < W) :
    h * w / W ≤ specRound h W w ∧ specRound h W w ≤ h * w / W + 1 := by
  have h2W : 0 < 2 * W := by omega
  constructor
  · rw [specRound, Nat.le_div_iff_mul_le h2W]
    have h1 : h * w / W * W ≤ h * w := Nat.div_mul_le_self (h * w) W
    have h2 : h * w / W * (2 * W) = 2 * (h * w / W * W) := by ring
    omega
  · have hlt : (2 * (h * w) + W) / (2 * W) < h * w / W + 2 := by
      rw [Nat.div_lt_iff_lt_mul h2W]
      have hm := Nat.div_add_mod (h * w) W
      have hr := Nat.mod_lt (h * w) hW
      have h2 : (h * w / W + 1) * W = W * (h * w / W) + W := by ring
      have h3 : (h * w / W + 2) * (2 * W) = 2 * ((h * w / W + 1) * W) + 2 * W := by ring
      omega
    rw [specRound]
    omega

lemma newHeight_pos_mono (i : Img) (w v : Nat) (hwv : w ≤ v)
    (h : 0 < newHeight i.height i.width w) : 0 < newHeight i.height i.width v := by
  have hW : 0 < i.width := by
    rcases Nat.eq_zero_or_pos i.width with h0 | h0
    · rw [newHeight, h0, Nat.div_zero] at h
      exact absurd h (lt_irrefl 0)
    · exact h0
  have hle : i.width ≤ i.height * w := by
    by_contra hc
    push_neg at hc
    rw [newHeight, Nat.div_eq_of_lt hc] at h
    exact lt_irrefl 0 h
  exact Nat.div_pos (le_trans hle (Nat.mul_le_mul (le_refl i.height) hwv)) hW

lemma runVariants_head_mem (i : Img) (b p : String) (q : String × Nat)
    (qs : List (String × Nat)) (r : (String × Entry) × LogMsg)
    (h : processVariant i b q = some r) :
    r.1 ∈ (runVariants i b p (q :: qs)).2 := by
  rw [runVariants_cons_some i b p q qs r h]
  exact List.mem_cons_self _ _

lemma runVariants_two (i : Img) (b p : String) (r1 r2 : (String × Entry) × LogMsg)
    (h1 : processVariant i b ("large", 1800) = some r1)
    (h2 : processVariant i b ("small", 900) = some r2) :
    runVariants i b p TARGET_WIDTHS = ([r1.2, r2.2], [r1.1, r2.1]) := by
  rw [show TARGET_WIDTHS = ("large", 1800) :: [("small", 900)] from rfl,
    runVariants_cons_some i b p _ _ r1 h1,
    runVariants_cons_some i b p _ _ r2 h2, runVariants_nil]

/-! Claim theorems. -/

/-- C1 (counterexample): the claim says the written variant height equals
`round(original_height × width / original_width)`. For a 3-wide, 4-tall
image resized to target width 2 the code writes height `int(4 * 2/3) = 2`,
while `round(8/3) = 3`. -/
theorem resize_height_not_round :
    ((optimize_image (fsShot ⟨3, 4, 0⟩) "shot.png" "b" [("large", 2)]).2 =
      [(pathJoin OUTPUT_DIR "b.webp", Entry.webp ⟨2, 2, 0⟩ 80)]) ∧
    specRound 4 3 2 = 3 ∧ (2 : Nat) ≠ 3 := by
  decide

/-- C1 (amended): for every invocation of `optimize_image` with the
program's width targets, on an existing, decodable source image and every
`(label, width)` target with original width strictly exceeding the target
and a non-zero truncated height, the written variant has width equal to the
target and height equal to the truncation
`⌊original_height × width / original_width⌋`, which is within one pixel of
`round(original_height × width / original_width)`; a zero truncated height
instead makes the resize raise so that nothing is written for the entry
(see the C10 theorem). -/
theorem resize_height_floor (fs : FS) (p b : String)
    (i : Img) (label : String) (w : Nat)
    (hfs : fs p = some (Entry.image i)) (hmem : (label, w) ∈ TARGET_WIDTHS)
    (hw : w < i.width) (hpos : 0 < i.height * w / i.width) :
    (pathJoin OUTPUT_DIR (final_name b label),
      Entry.webp ⟨w, i.height * w / i.width, i.pix⟩ 80) ∈
        (optimize_image fs p b TARGET_WIDTHS).2 ∧
    i.height * w / i.width ≤ specRound i.height i.width w ∧
    specRound i.height i.width w ≤ i.height * w / i.width + 1 := by
  have hW : 0 < i.width := lt_of_le_of_lt (Nat.zero_le w) hw
  refine ⟨?_, floor_div_bounds i.height i.width w hW⟩
  rw [optimize_image_of_image fs p b TARGET_WIDTHS i hfs]
  simp only [TARGET_WIDTHS, List.mem_cons, List.not_mem_nil, or_false,
    Prod.mk.injEq] at hmem
  rcases hmem with ⟨rfl, rfl⟩ | ⟨rfl, rfl⟩
  · have hs1 := processVariant_resize_success i b ("large", 1800) hw (by decide) hpos
    exact runVariants_head_mem i b p ("large", 1800) [("small", 900)] _ hs1
  · have hpos18 : 0 < newHeight i.height i.width 1800 :=
      newHeight_pos_mono i 900 1800 (by decide) hpos
    have hs2 := processVariant_resize_success i b ("small", 900) hw (by decide) hpos
    by_cases h18 : 1800 < i.width
    · have hs1 := processVariant_resize_success i b ("large", 1800) h18 (by decide) hpos18
      rw [runVariants_two i b p _ _ hs1 hs2]
      exact List.Mem.tail _ (List.Mem.head _)
    · have hs1 := processVariant_pass i b ("large", 1800) (not_lt.mp h18)
      rw [runVariants_two i b p _ _ hs1 hs2]
      exact List.Mem.tail _ (List.Mem.head _)

/-- Witness for `resize_height_floor`: a 3600×2000 image resized to the 1800
"large" target yields a 1800×1000 output. -/
theorem resize_height_floor_witness :
    (pathJoin OUTPUT_DIR (final_name "hud-light" "large"),
      Entry.webp ⟨1800, 1000, 0⟩ 80) ∈
        (optimize_image fsAll "sp" "hud-light" TARGET_WIDTHS).2 ∧
    (1000 : Nat) ≤ specRound 2000 3600 1800 ∧ specRound 2000 3600 1800 ≤ 1000 + 1 :=
  resize_height_floor fsAll "sp" "hud-light" ⟨3600, 2000, 0⟩ "large" 1800
    rfl (by decide) (by decide) (by decide)

/-- C2 (counterexample): the claim says that when `width_targets` contains
exactly one entry the output filename carries no variant suffix; for the
single-entry targets `[("small", 900)]` the code still writes
`b-small.webp`, not `b.webp`. -/
theorem single_small_target_keeps_suffix :
    ((optimize_image (fsShot ⟨1000, 800, 0⟩) "shot.png" "b" [("small", 900)]).2).map
      Prod.fst = [pathJoin OUTPUT_DIR "b-small.webp"] ∧
    pathJoin OUTPUT_DIR "b-small.webp" ≠ pathJoin OUTPUT_DIR "b.webp" := by
  decide

/-- C2 (amended): every file `optimize_image` writes is named
`{base}.webp` when its target's label is "large" and `{base}-{label}.webp`
otherwise, regardless of how many width targets there are; and with the
program's targets `{"large": 1800, "small": 900}` and base `"hud-light"`,
any decodable source whose 900-target height does not truncate to zero
(original width ≤ 900 × original height) produces exactly
`hud-light.webp` and `hud-light-small.webp`. -/
theorem output_naming_by_label :
    (∀ (fs : FS) (p b : String) (widths : List (String × Nat))
      (pr : String × Entry), pr ∈ (optimize_image fs p b widths).2 →
      ∃ lw, lw ∈ widths ∧ pr.1 = pathJoin OUTPUT_DIR
        (if lw.1 = "large" then b ++ ".webp" else b ++ "-" ++ lw.1 ++ ".webp")) ∧
    (∀ (fs : FS) (p : String) (i : Img), fs p = some (Entry.image i) →
      i.width ≤ i.height * 900 →
      ((optimize_image fs p "hud-light" TARGET_WIDTHS).2).map Prod.fst =
        [pathJoin OUTPUT_DIR "hud-light.webp",
         pathJoin OUTPUT_DIR "hud-light-small.webp"]) := by
  constructor
  · intro fs p b widths pr hpr
    have h := optimize_image_write_path_mem fs p b widths pr hpr
    obtain ⟨q, hq, hpath⟩ := List.mem_map.mp h
    exact ⟨q, hq, by rw [← hpath]; rfl⟩
  · intro fs p i hfs hbound
    rw [optimize_image_of_image fs p "hud-light" TARGET_WIDTHS i hfs]
    by_cases h9 : 900 < i.width
    · have hpos9 : 0 < newHeight i.height i.width 900 :=
        Nat.div_pos hbound (lt_of_le_of_lt (Nat.zero_le 900) h9)
      have hs2 := processVariant_resize_success i "hud-light" ("small", 900) h9
        (by decide) hpos9
      by_cases h18 : 1800 < i.width
      · have hpos18 : 0 < newHeight i.height i.width 1800 :=
          newHeight_pos_mono i 900 1800 (by decide) hpos9
        have hs1 := processVariant_resize_success i "hud-light" ("large", 1800) h18
          (by decide) hpos18
        rw [runVariants_two i "hud-light" p _ _ hs1 hs2]
        rfl
      · have hs1 := processVariant_pass i "hud-light" ("large", 1800) (not_lt.mp h18)
        rw [runVariants_two i "hud-light" p _ _ hs1 hs2]
        rfl
    · have hle9 : i.width ≤ 900 := not_lt.mp h9
      have hs1 := processVariant_pass i "hud-light" ("large", 1800)
        (le_trans hle9 (by decide))
      have hs2 := processVariant_pass i "hud-light" ("small", 900) hle9
      rw [runVariants_two i "hud-light" p _ _ hs1 hs2]
      rfl

/-- Witness for `output_naming_by_label` at a concrete 1000×800 image. -/
theorem output_naming_by_label_witness :
    (∃ lw, lw ∈ [(("small" : String), (900 : Nat))] ∧
      (pathJoin OUTPUT_DIR "b-small.webp",
        Entry.webp ⟨900, 720, 0⟩ 80).1 = pathJoin OUTPUT_DIR
        (if lw.1 = "large" then "b" ++ ".webp" else "b" ++ "-" ++ lw.1 ++ ".webp")) ∧
    ((optimize_image (fsShot ⟨1000, 800, 0⟩) "shot.png" "hud-light" TARGET_WIDTHS).2).map
      Prod.fst = [pathJoin OUTPUT_DIR "hud-light.webp",
        pathJoin OUTPUT_DIR "hud-light-small.webp"] :=
  ⟨output_naming_by_label.1 (fsShot ⟨1000, 800, 0⟩) "shot.png" "b" [("small", 900)]
      (pathJoin OUTPUT_DIR "b-small.webp", Entry.webp ⟨900, 720, 0⟩ 80) (by decide),
   output_naming_by_label.2 (fsShot ⟨1000, 800, 0⟩) "shot.png" ⟨1000, 800, 0⟩
     (by decide) (by decide)⟩

/-- C3: the process exits non-zero exactly when the imaging library is
absent, in which case the module-level import fails before `main` runs, so
nothing is processed and no output directory is created; with the library
present every run (whatever the filesystem holds) exits zero after the
batch. -/
theorem exit_nonzero_iff_pillow_missing (pillow d : Bool) (fs : FS) :
    ((runProcess pillow d fs).exitCode ≠ 0 ↔ pillow = false) ∧
    (pillow = false → (runProcess pillow d fs).ran = none) ∧
    (pillow = true → (runProcess pillow d fs).exitCode = 0 ∧
      (runProcess pillow d fs).ran = some (main d fs)) := by
  cases pillow <;> simp [runProcess]

/-- Witness for `exit_nonzero_iff_pillow_missing` on the empty filesystem. -/
theorem exit_nonzero_iff_pillow_missing_witness :
    ((runProcess false false fsEmpty).exitCode ≠ 0 ↔ false = false) ∧
    (runProcess false false fsEmpty).ran = none ∧
    (runProcess true false fsEmpty).exitCode = 0 :=
  ⟨(exit_nonzero_iff_pillow_missing false false fsEmpty).1,
   (exit_nonzero_iff_pillow_missing false false fsEmpty).2.1 rfl,
   ((exit_nonzero_iff_pillow_missing true false fsEmpty).2.2 rfl).1⟩

/-- C4: a missing source makes `optimize_image` (and `optimize_icon`) emit a
warning and return with no writes, and the batch driver still processes the
remaining entries: with the first screenshot absent but the icon present,
the icon output message is still logged and the count is still 12. -/
theorem missing_source_warns_and_continues :
    (∀ (fs : FS) (p b : String) (widths : List (String × Nat)), fs p = none →
      optimize_image fs p b widths = ([LogMsg.warnMissing p], [])) ∧
    (∀ (fs : FS) (p n : String) (m : Nat), fs p = none →
      optimize_icon fs p n m = ([LogMsg.warnIconMissing p], [])) ∧
    (∀ (d : Bool) (fs : FS) (i : Img),
      fs (pathJoin SCREENSHOTS_DIR "HUD Light.png") = none →
      fs ICON_PATH = some (Entry.image i) →
      LogMsg.warnMissing (pathJoin SCREENSHOTS_DIR "HUD Light.png") ∈ (main d fs).logs ∧
      LogMsg.generatedIcon "app-icon.webp" ∈ (main d fs).logs ∧
      (main d fs).count = 12) := by
  refine ⟨optimize_image_of_missing, optimize_icon_of_missing, ?_⟩
  intro d fs i h1 h2
  refine ⟨?_, ?_, ?_⟩
  · rw [main_logs]
    refine List.mem_append_left _ (List.mem_flatten.mpr ?_)
    refine ⟨(optimize_image fs (pathJoin SCREENSHOTS_DIR "HUD Light.png") "hud-light"
      TARGET_WIDTHS).1, ?_, ?_⟩
    · exact List.mem_map_of_mem _
        (show ("HUD Light.png", "hud-light") ∈ FILES_TO_PROCESS by decide)
    · rw [optimize_image_of_missing _ _ _ _ h1]
      exact List.mem_singleton.mpr rfl
  · rw [main_logs]
    refine List.mem_append_right _ ?_
    rw [optimize_icon_of_image fs ICON_PATH "app-icon" MAX_WIDTH_ICON i h2 (by decide)]
    exact List.mem_singleton.mpr rfl
  · rw [main_count]
    rfl

/-- Witness for `missing_source_warns_and_continues`: the empty filesystem
and a filesystem holding only the icon. -/
theorem missing_source_warns_and_continues_witness :
    optimize_image fsEmpty "a.png" "b" TARGET_WIDTHS =
      ([LogMsg.warnMissing "a.png"], []) ∧
    optimize_icon fsEmpty "a.png" "n" 160 = ([LogMsg.warnIconMissing "a.png"], []) ∧
    (LogMsg.warnMissing (pathJoin SCREENSHOTS_DIR "HUD Light.png") ∈
      (main false fsIconOnly).logs ∧
     LogMsg.generatedIcon "app-icon.webp" ∈ (main false fsIconOnly).logs ∧
     (main false fsIconOnly).count = 12) :=
  ⟨missing_source_warns_and_continues.1 fsEmpty "a.png" "b" TARGET_WIDTHS rfl,
   missing_source_warns_and_continues.2.1 fsEmpty "a.png" "n" 160 rfl,
   missing_source_warns_and_continues.2.2 false fsIconOnly ⟨1024, 1024, 5⟩
     (by decide) (by decide)⟩

/-- C5: on an existing, decodable icon source, with a positive `max_size`
(the program's only invocation passes 160; PIL itself could not have decoded
a zero-dimension icon), the written output is exactly `max_size × max_size`
when the source is wider than `max_size` (aspect ratio not preserved),
unchanged otherwise, written as `{output_name}.webp` at quality 80. -/
theorem icon_square_resize (fs : FS) (p n : String) (m : Nat) (i : Img)
    (hfs : fs p = some (Entry.image i)) (hm : 0 < m) :
    ∃ j, optimize_icon fs p n m =
        ([LogMsg.generatedIcon (n ++ ".webp")],
         [(pathJoin OUTPUT_DIR (n ++ ".webp"), Entry.webp j 80)]) ∧
      (m < i.width → j.width = m ∧ j.height = m) ∧
      (i.width ≤ m → j = i) := by
  refine ⟨if i.width > m then Img.mk m m i.pix else i,
    optimize_icon_of_image fs p n m i hfs hm, ?_, ?_⟩
  · intro hlt
    simp [if_pos hlt]
  · intro hle
    have hng : ¬ (i.width > m) := not_lt.mpr hle
    simp [if_neg hng]

/-- Witness for `icon_square_resize`: the 1024-wide icon with `max_size`
160. -/
theorem icon_square_resize_witness :
    ∃ j, optimize_icon fsIconOnly ICON_PATH "app-icon" MAX_WIDTH_ICON =
        ([LogMsg.generatedIcon ("app-icon" ++ ".webp")],
         [(pathJoin OUTPUT_DIR ("app-icon" ++ ".webp"), Entry.webp j 80)]) ∧
      (MAX_WIDTH_ICON < 1024 → j.width = MAX_WIDTH_ICON ∧ j.height = MAX_WIDTH_ICON) ∧
      (1024 ≤ MAX_WIDTH_ICON → j = ⟨1024, 1024, 5⟩) :=
  icon_square_resize fsIconOnly ICON_PATH "app-icon" MAX_WIDTH_ICON ⟨1024, 1024, 5⟩
    (by decide) (by decide)

/-- C6: for the program's width targets, on an existing, decodable source
whose width is at most the target width (equality included), the written
variant is the original image unchanged, so its dimensions equal the
original dimensions; since the "large" target iterates first, no degenerate
sibling resize can abort the loop before this unchanged save happens. -/
theorem no_upscale_when_width_le_target (fs : FS) (p b : String)
    (i : Img) (label : String) (w : Nat)
    (hfs : fs p = some (Entry.image i)) (hmem : (label, w) ∈ TARGET_WIDTHS)
    (hw : i.width ≤ w) :
    (pathJoin OUTPUT_DIR (final_name b label), Entry.webp i 80) ∈
      (optimize_image fs p b TARGET_WIDTHS).2 := by
  rw [optimize_image_of_image fs p b TARGET_WIDTHS i hfs]
  simp only [TARGET_WIDTHS, List.mem_cons, List.not_mem_nil, or_false,
    Prod.mk.injEq] at hmem
  rcases hmem with ⟨rfl, rfl⟩ | ⟨rfl, rfl⟩
  · have hs1 := processVariant_pass i b ("large", 1800) hw
    exact runVariants_head_mem i b p ("large", 1800) [("small", 900)] _ hs1
  · have hs1 := processVariant_pass i b ("large", 1800) (le_trans hw (by decide))
    have hs2 := processVariant_pass i b ("small", 900) hw
    rw [runVariants_two i b p _ _ hs1 hs2]
    exact List.Mem.tail _ (List.Mem.head _)

/-- Witness for `no_upscale_when_width_le_target`: a 900×500 image whose
width equals the 900 "small" target is written unchanged. -/
theorem no_upscale_when_width_le_target_witness :
    (pathJoin OUTPUT_DIR (final_name "b" "small"), Entry.webp ⟨900, 500, 3⟩ 80) ∈
      (optimize_image (fsShot ⟨900, 500, 3⟩) "shot.png" "b" TARGET_WIDTHS).2 :=
  no_upscale_when_width_le_target (fsShot ⟨900, 500, 3⟩) "shot.png" "b"
    ⟨900, 500, 3⟩ "small" 900 (by decide) (by decide) (by decide)

/-- C7 (counterexample): the claim says an entry yields zero artifacts only
when its source file is missing; a present but undecodable source also
yields zero artifacts. -/
theorem corrupt_source_zero_artifacts :
    fsCorruptOne "shot.png" ≠ none ∧
    (optimize_image fsCorruptOne "shot.png" "b" TARGET_WIDTHS).2 = [] := by
  decide

/-- C7 (amended): with a non-empty width-target list an entry yields zero
artifacts exactly when the source is missing, fails to decode, or its first
variant's processing raises (e.g. a resize whose truncated height is zero);
a later failure keeps the earlier variants' files, so an entry never yields
more than one artifact per width target. Concretely, with the program's
targets a present decodable 2000×1 source yields zero artifacts and a
1000×1 source yields one of the two. -/
theorem zero_artifacts_iff_missing_or_undecodable (fs : FS) (p b : String)
    (widths : List (String × Nat)) (hne : widths ≠ []) :
    ((optimize_image fs p b widths).2 = [] ↔
      (fs p).bind decodeEntry = none ∨
      ∃ i q, (fs p).bind decodeEntry = some i ∧ widths.head? = some q ∧
        processVariant i b q = none) ∧
    (∀ i : Img, fs p = some (Entry.image i) →
      (optimize_image fs p b widths).2.length ≤ widths.length) ∧
    (optimize_image (fsShot ⟨2000, 1, 0⟩) "shot.png" "b" TARGET_WIDTHS).2 = [] ∧
    fsShot ⟨2000, 1, 0⟩ "shot.png" ≠ none ∧
    ((optimize_image (fsShot ⟨1000, 1, 0⟩) "shot.png" "b" TARGET_WIDTHS).2).length
      = 1 := by
  refine ⟨?_, ?_, by decide, by decide, by decide⟩
  · cases hfs : fs p with
    | none =>
      rw [optimize_image_of_missing fs p b widths hfs]
      simp
    | some e =>
      cases hd : decodeEntry e with
      | none =>
        rw [optimize_image_of_undecodable fs p b widths e hfs hd]
        simp [hd]
      | some i =>
        rw [optimize_image_of_decodable fs p b widths e i hfs hd]
        cases widths with
        | nil => exact absurd rfl hne
        | cons q qs =>
          cases hq : processVariant i b q with
          | none =>
            rw [runVariants_cons_none i b p q qs hq]
            simp [hd, hq]
          | some r =>
            rw [runVariants_cons_some i b p q qs r hq]
            simp [hd, hq]
  · intro i hfs
    rw [optimize_image_of_image fs p b widths i hfs]
    exact runVariants_length_le i b p widths

/-- Witness for `zero_artifacts_iff_missing_or_undecodable` on the empty
filesystem (the concrete conjuncts instantiate the decodable cases). -/
theorem zero_artifacts_iff_missing_or_undecodable_witness :
    (((optimize_image fsEmpty "x.png" "b" TARGET_WIDTHS).2 = [] ↔
      (fsEmpty "x.png").bind decodeEntry = none ∨
      ∃ i q, (fsEmpty "x.png").bind decodeEntry = some i ∧
        TARGET_WIDTHS.head? = some q ∧ processVariant i "b" q = none) ∧
     (∀ i : Img, fsEmpty "x.png" = some (Entry.image i) →
       (optimize_image fsEmpty "x.png" "b" TARGET_WIDTHS).2.length ≤
         TARGET_WIDTHS.length) ∧
     (optimize_image (fsShot ⟨2000, 1, 0⟩) "shot.png" "b" TARGET_WIDTHS).2 = [] ∧
     fsShot ⟨2000, 1, 0⟩ "shot.png" ≠ none ∧
     ((optimize_image (fsShot ⟨1000, 1, 0⟩) "shot.png" "b" TARGET_WIDTHS).2).length
       = 1) :=
  zero_artifacts_iff_missing_or_undecodable fsEmpty "x.png" "b" TARGET_WIDTHS
    (by decide)

/-- C8: the batch driver folds over the static file table in insertion
order, producing the ordered concatenation of each screenshot entry's
output followed by the icon's; the reported count is the number of source
files processed (11 screenshots plus the icon, i.e. 12) independent of the
filesystem, while the number of artifacts can differ (23 when every source
is present). -/
theorem batch_count_and_order (d : Bool) (fs : FS) :
    (main d fs).count = FILES_TO_PROCESS.length + 1 ∧
    (main d fs).count = 12 ∧
    (main d fs).logs = (FILES_TO_PROCESS.map (fun pr =>
        (optimize_image fs (pathJoin SCREENSHOTS_DIR pr.1) pr.2 TARGET_WIDTHS).1)).flatten ++
      (optimize_icon fs ICON_PATH "app-icon" MAX_WIDTH_ICON).1 ∧
    (main d fs).writes = (FILES_TO_PROCESS.map (fun pr =>
        (optimize_image fs (pathJoin SCREENSHOTS_DIR pr.1) pr.2 TARGET_WIDTHS).2)).flatten ++
      (optimize_icon fs ICON_PATH "app-icon" MAX_WIDTH_ICON).2 ∧
    (∃ gs : FS, (main d gs).writes.length = 23 ∧ (main d gs).count = 12) := by
  refine ⟨main_count d fs, ?_, main_logs d fs, main_writes d fs, fsAll, ?_, ?_⟩
  · rw [main_count]; rfl
  · rw [main_writes]; decide
  · rw [main_count]; rfl

/-- C9: the batch is deterministic and idempotent: running `main` again on
the filesystem produced by applying the first run's writes yields the very
same result (same logs, same writes with the same dimensions, format and
content for every output path, same count), the second run overwriting the
first run's files; this holds because no written path is ever read. -/
theorem batch_idempotent (d : Bool) (fs : FS) :
    main d (applyWrites fs (main d fs).writes) = main d fs := by
  apply main_congr
  intro p hp
  refine applyWrites_eq_of_not_written _ fs p ?_
  intro w hw hc
  exact sourcePaths_not_out p hp (hc ▸ main_write_path_mem d fs w hw)

/-- C10: the new height is the truncation `int(h × w / W)` — the rational
floor, so it is 0 whenever `h × w < W`, in which case the resize raises and
the error handler catches it, writing nothing for the entry from that
variant on — and each variant is computed from an independent copy of the
once-decoded original: for a 10×7 image with targets 5 then 3, the second
variant is 3×2 (from the original), whereas chaining from the
already-resized 5×3 variant would give 3×1. -/
theorem height_truncation_and_independent_copies :
    (∀ (h W w : Nat), Nat.floor ((h : ℚ) * w / W) = newHeight h W w) ∧
    (∀ (fs : FS) (p b : String) (i : Img) (label : String) (w : Nat)
      (qs : List (String × Nat)), fs p = some (Entry.image i) →
      w < i.width → i.height * w < i.width →
      newHeight i.height i.width w = 0 ∧
      resize i w (newHeight i.height i.width w) = none ∧
      optimize_image fs p b ((label, w) :: qs) =
        ([LogMsg.errorProcessing p], [])) ∧
    ((optimize_image (fsShot ⟨10, 7, 0⟩) "shot.png" "b" [("large", 5), ("x", 3)]).2).map
        Prod.snd = [Entry.webp ⟨5, 3, 0⟩ 80, Entry.webp ⟨3, 2, 0⟩ 80] ∧
    newHeight (newHeight 7 10 5) 5 3 = 1 ∧ (1 : Nat) ≠ 2 := by
  refine ⟨?_, ?_, by decide, by decide, by decide⟩
  · intro h W w
    have hc : ((h : ℚ) * w) = (((h * w : Nat) : ℚ)) := by push_cast; ring
    rw [hc, Nat.floor_div_nat]
    rfl
  · intro fs p b i label w qs hfs hw hsmall
    have h0 : newHeight i.height i.width w = 0 := Nat.div_eq_of_lt hsmall
    refine ⟨h0, ?_, ?_⟩
    · rw [h0]
      simp [resize]
    · rw [optimize_image_of_image fs p b ((label, w) :: qs) i hfs,
        runVariants_cons_none i b p (label, w) qs
          (processVariant_resize_fail i b (label, w) hw h0)]

/-- Witness for `height_truncation_and_independent_copies`: a 1000-wide,
1-tall image resized to width 500 gets computed height 0, so the resize
raises and the program writes nothing for the entry. -/
theorem height_truncation_and_independent_copies_witness :
    newHeight 1 1000 500 = 0 ∧
    resize ⟨1000, 1, 0⟩ 500 (newHeight 1 1000 500) = none ∧
    optimize_image (fsShot ⟨1000, 1, 0⟩) "shot.png" "b" [("large", 500)] =
      ([LogMsg.errorProcessing "shot.png"], []) :=
  height_truncation_and_independent_copies.2.1 (fsShot ⟨1000, 1, 0⟩) "shot.png" "b"
    ⟨1000, 1, 0⟩ "large" 500 [] (by decide) (by decide) (by decide)

end OptimizeImages
